import Mathlib

/-!
Shallow embedding of the operational-transformation engine in
`src/templates/performance/real-time-collaboration/src/operational_transform.rs`.

Document content is modelled as the list of bytes of the Rust `String`
(`List Nat`, each entry one byte).  Timestamps are modelled as integer
milliseconds (`Int`); the Rust code only compares timestamps and takes
millisecond differences, so this is faithful.  `Uuid` identifiers are
modelled as `Nat`.  Fallible Rust paths are explicit: `anyhow::Result`
becomes `Except TransformError`, and a Rust panic (e.g. `String.insert_str`
on a non-char-boundary index) becomes `none` in an `Option`.
-/

/-- Mirrors Rust `enum OperationType`. -/
inductive OperationType where
  | insert (position : Nat) (content : List Nat)
  | delete (position : Nat) (length : Nat)
  | retain (length : Nat)
deriving DecidableEq, Repr

/-- Mirrors Rust `struct Operation`. -/
structure Operation where
  id : Nat
  client_id : Nat
  operation_type : OperationType
  timestamp : Int
  revision : Nat
deriving DecidableEq, Repr

/-- Mirrors Rust `struct OperationResult`. -/
structure OperationResult where
  success : Bool
  new_revision : Nat
  transformed_operations : List Operation
  conflict_resolved : Bool
deriving DecidableEq, Repr

/-- Stands for the `anyhow::Error` values produced by the two conflict
resolvers when handed operations of the wrong kind. -/
inductive TransformError where
  | invalid_types
deriving DecidableEq, Repr

/-- Mirrors `resolve_insert_delete_conflict`: splits the delete around the
insert, collects `[insert, pre-delete?, post-delete?]` (zero-length
sub-deletes skipped), and returns the first two entries of that vector when
it has at least two, else the original pair. -/
def resolve_insert_delete_conflict (insert_op delete_op : Operation) :
    Except TransformError (Option (Operation × Operation)) :=
  match insert_op.operation_type, delete_op.operation_type with
  | .insert insert_pos content, .delete delete_pos length =>
    let offset_from_delete_start : Int := (insert_pos : Int) - (delete_pos : Int)
    if 0 ≤ offset_from_delete_start ∧ offset_from_delete_start.toNat < length then
      let pre_delete_length : Nat := offset_from_delete_start.toNat
      let post_delete_start : Nat := insert_pos + content.length
      let post_delete_length : Nat := length - pre_delete_length
      let transformed_ops : List Operation :=
        [insert_op]
          ++ (if 0 < pre_delete_length then
                [{ delete_op with operation_type := .delete delete_pos pre_delete_length }]
              else [])
          ++ (if 0 < post_delete_length then
                [{ delete_op with operation_type := .delete post_delete_start post_delete_length }]
              else [])
      match transformed_ops with
      | a :: b :: _ => .ok (some (a, b))
      | _ => .ok (some (insert_op, delete_op))
    else
      .ok (some (insert_op, delete_op))
  | _, _ => .error .invalid_types

/-- Mirrors `resolve_overlapping_deletes`: merges two overlapping deletes
into a single delete spanning both ranges, keeping the earlier timestamp,
and returns the merged operation as both components. -/
def resolve_overlapping_deletes (op1 op2 : Operation) :
    Except TransformError (Option (Operation × Operation)) :=
  match op1.operation_type, op2.operation_type with
  | .delete pos1 len1, .delete pos2 len2 =>
    let start := min pos1 pos2
    let stop := max (pos1 + len1) (pos2 + len2)
    let merged_length := stop - start
    let merged : Operation :=
      { op1 with
        operation_type := .delete start merged_length,
        timestamp := if op1.timestamp < op2.timestamp then op1.timestamp else op2.timestamp }
    .ok (some (merged, merged))
  | _, _ => .error .invalid_types

/-- Mirrors `transform_operations`.  The `Nat` subtractions below are only
reached under guards that make the Rust `usize` subtractions non-underflowing,
so truncating subtraction agrees with the source. -/
def transform_operations (op1 op2 : Operation) :
    Except TransformError (Option (Operation × Operation)) :=
  match op1.operation_type, op2.operation_type with
  | .insert pos1 content1, .insert pos2 content2 =>
    if pos1 ≤ pos2 then
      .ok (some (op1, { op2 with operation_type := .insert (pos2 + content1.length) content2 }))
    else
      .ok (some ({ op1 with operation_type := .insert (pos1 + content2.length) content1 }, op2))
  | .insert pos1 content, .delete pos2 length =>
    if pos1 ≤ pos2 then
      .ok (some (op1, { op2 with operation_type := .delete (pos2 + content.length) length }))
    else if pos2 + length ≤ pos1 then
      .ok (some ({ op1 with operation_type := .insert (pos1 - length) content }, op2))
    else
      resolve_insert_delete_conflict op1 op2
  | .delete pos1 length, .insert pos2 content =>
    if pos2 ≤ pos1 then
      .ok (some ({ op1 with operation_type := .delete (pos1 + content.length) length }, op2))
    else if pos1 + length ≤ pos2 then
      .ok (some (op1, { op2 with operation_type := .insert (pos2 - length) content }))
    else
      resolve_insert_delete_conflict op2 op1
  | .delete pos1 len1, .delete pos2 len2 =>
    if pos1 + len1 ≤ pos2 then
      .ok (some (op1, { op2 with operation_type := .delete (pos2 - len1) len2 }))
    else if pos2 + len2 ≤ pos1 then
      .ok (some ({ op1 with operation_type := .delete (pos1 - len2) len1 }, op2))
    else
      resolve_overlapping_deletes op1 op2
  | .retain _, _ => .ok (some (op1, op2))
  | _, .retain _ => .ok (some (op1, op2))

/-- The three fields guarded by the engine's locks: `document_content`,
`operation_history` (front = oldest), `revision`. -/
structure EngineState where
  document_content : List Nat
  operation_history : List Operation
  revision : Nat
deriving DecidableEq, Repr

/-- Mirrors the `max_history_size: 1000` set in `OperationalTransform::new`. -/
def max_history_size : Nat := 1000

/-- Mirrors `OperationalTransform::new()`: empty content, empty history,
revision 0. -/
def initial_state : EngineState :=
  { document_content := [], operation_history := [], revision := 0 }

/-- Mirrors `find_concurrent_operations`: history entries from a different
client, with revision at least the incoming operation's, within a one-second
timestamp window. -/
def find_concurrent_operations (operation : Operation) (history : List Operation) :
    List Operation :=
  history.filter fun op =>
    decide (op.client_id ≠ operation.client_id) &&
    decide (operation.revision ≤ op.revision) &&
    decide ((op.timestamp - operation.timestamp).natAbs < 1000)

/-- Outcome of the transform loop in `apply_operation`: either the early
`return Ok(.. success: false ..)` taken when a concurrent operation wins the
timestamp tie-break, or fall-through with the final operation, the
accumulated `transformed_operations` vector, and the `conflict_resolved`
flag. -/
inductive TransformOutcome where
  | reject (winner : Operation)
  | proceed (final : Operation) (acc : List Operation) (conflict : Bool)
deriving DecidableEq, Repr

/-- The `for concurrent_op in concurrent_ops` loop of `apply_operation`,
threading `final_operation` forward through `transform_operations`. -/
def transform_loop (operation : Operation) (concurrent : List Operation)
    (final : Operation) (acc : List Operation) (conflict : Bool) :
    Except TransformError TransformOutcome :=
  match concurrent with
  | [] => .ok (.proceed final acc conflict)
  | c :: rest =>
    match transform_operations final c with
    | .error e => .error e
    | .ok (some (t, _)) => transform_loop operation rest t acc true
    | .ok none =>
      if operation.timestamp < c.timestamp then
        transform_loop operation rest final (acc ++ [c]) conflict
      else
        .ok (.reject c)

/-- Rust `str::is_char_boundary` on the byte list: true at the end of the
string and at any byte that is not a UTF-8 continuation byte
(`b < 0x80 || b >= 0xC0`). -/
def is_char_boundary (s : List Nat) (i : Nat) : Bool :=
  match s.get? i with
  | none => i == s.length
  | some b => decide (b < 128) || decide (192 ≤ b)

/-- Rust `String::insert_str`, which panics (here: `none`) when the index is
not a char boundary (indices past the end are not boundaries either). -/
def insert_str (s : List Nat) (idx : Nat) (t : List Nat) : Option (List Nat) :=
  if is_char_boundary s idx then some (s.take idx ++ t ++ s.drop idx) else none

/-- Rust `String::drain(a..b)`, which panics (here: `none`) on an inverted
range or when either end is not a char boundary. -/
def drain (s : List Nat) (a b : Nat) : Option (List Nat) :=
  if a ≤ b ∧ is_char_boundary s a ∧ is_char_boundary s b then
    some (s.take a ++ s.drop b)
  else none

/-- The `let success = match &final_operation.operation_type` block of
`apply_operation`: mutates the content and reports whether the bounds checks
passed; `none` models a panic inside `insert_str`/`drain`. -/
def apply_content (content : List Nat) (final : Operation) :
    Option (List Nat × Bool) :=
  match final.operation_type with
  | .insert position insert_content =>
    if position ≤ content.length then
      (insert_str content position insert_content).map fun c => (c, true)
    else
      some (content, false)
  | .delete position length =>
    if position < content.length ∧ position + length ≤ content.length then
      (drain content position (position + length)).map fun c => (c, true)
    else
      some (content, false)
  | .retain _ => some (content, true)

/-- `history.push_back(op)` followed by the `if history.len() > max_history_size
{ history.pop_front(); }` cleanup. -/
def push_history (history : List Operation) (op : Operation) : List Operation :=
  if max_history_size < (history ++ [op]).length then (history ++ [op]).drop 1
  else history ++ [op]

/-- The tail of `apply_operation` after the transform loop: apply the final
operation to the content and, on success, bump the revision, stamp the
operation, and push it into the bounded history. -/
def finish_apply (st : EngineState) (final : Operation) (acc : List Operation)
    (conflict : Bool) : Option (EngineState × OperationResult) :=
  match apply_content st.document_content final with
  | none => none
  | some (new_content, true) =>
    let new_revision := st.revision + 1
    let stamped := { final with revision := new_revision }
    some ({ document_content := new_content,
            operation_history := push_history st.operation_history stamped,
            revision := new_revision },
          { success := true, new_revision := new_revision,
            transformed_operations := acc ++ [stamped], conflict_resolved := conflict })
  | some (_, false) =>
    some (st, { success := false, new_revision := st.revision,
                transformed_operations := acc, conflict_resolved := conflict })

/-- Mirrors `apply_operation`.  The outer `Option` is `none` exactly when the
Rust code would panic; `Except.error` is the `?`-propagated `anyhow` error;
otherwise the new engine state and the returned `OperationResult`. -/
def apply_operation (st : EngineState) (operation : Operation) :
    Option (Except TransformError (EngineState × OperationResult)) :=
  let concurrent_ops := find_concurrent_operations operation st.operation_history
  match transform_loop operation concurrent_ops operation [] false with
  | .error e => some (.error e)
  | .ok (.reject winner) =>
    some (.ok (st, { success := false, new_revision := st.revision,
                     transformed_operations := [winner], conflict_resolved := true }))
  | .ok (.proceed final acc conflict) =>
    (finish_apply st final acc conflict).map .ok

/-- State after one `apply_operation` call: the mutated state on a normal
return, the unchanged state otherwise. -/
def next_state (st : EngineState) (op : Operation) : EngineState :=
  match apply_operation st op with
  | some (.ok (st', _)) => st'
  | _ => st

/-- A sequence of `apply_operation` calls against one engine. -/
def run_ops (st : EngineState) : List Operation → EngineState
  | [] => st
  | op :: rest => run_ops (next_state st op) rest

/-- The effect of one operation on document content, with the same bounds
checks `apply_operation` performs (boundary panics aside): used to state
what a (transformed) operation does to a document. -/
def apply_effect (content : List Nat) : OperationType → Option (List Nat)
  | .insert position insert_content =>
    if position ≤ content.length then
      some (content.take position ++ insert_content ++ content.drop position)
    else none
  | .delete position length =>
    if position < content.length ∧ position + length ≤ content.length then
      some (content.take position ++ content.drop (position + length))
    else none
  | .retain _ => some content

/-- The bounds condition of the spec: position past the end of the content,
or deleted range running past the end. -/
def out_of_bounds (len : Nat) : OperationType → Prop
  | .insert position _ => len < position
  | .delete position length => len < position ∨ len < position + length
  | .retain _ => False

/-- Two concurrent inserts at the same position with different timestamps:
client 1 inserts byte 97 at 0, client 2 inserts byte 98 at 0. -/
def c1A : Operation :=
  { id := 1, client_id := 1, operation_type := .insert 0 [97], timestamp := 0, revision := 0 }

def c1B : Operation :=
  { id := 2, client_id := 2, operation_type := .insert 0 [98], timestamp := 5, revision := 0 }

/-- Insert of bytes 88, 89 at position 2, strictly inside the concurrent
delete of range [1, 4). -/
def c2_ins : Operation :=
  { id := 3, client_id := 1, operation_type := .insert 2 [88, 89], timestamp := 0, revision := 0 }

def c2_del : Operation :=
  { id := 4, client_id := 2, operation_type := .delete 1 3, timestamp := 1, revision := 0 }

/-- Equal-position inserts where the first argument has the LATER timestamp. -/
def c3A : Operation :=
  { id := 5, client_id := 9, operation_type := .insert 0 [97], timestamp := 50, revision := 0 }

def c3B : Operation :=
  { id := 6, client_id := 2, operation_type := .insert 0 [98], timestamp := 10, revision := 0 }

/-- The overlapping deletes of the spec scenario: ranges [1, 3) and [2, 5). -/
def c4a : Operation :=
  { id := 7, client_id := 1, operation_type := .delete 1 2, timestamp := 3, revision := 0 }

def c4b : Operation :=
  { id := 8, client_id := 2, operation_type := .delete 2 3, timestamp := 7, revision := 0 }

/-- Content "start" with an out-of-bounds delete at position 10. -/
def c5_state : EngineState :=
  { document_content := [115, 116, 97, 114, 116], operation_history := [], revision := 0 }

def c5_op : Operation :=
  { id := 9, client_id := 1, operation_type := .delete 10 2, timestamp := 0, revision := 0 }

/-- Two-byte UTF-8 content (the encoding of one character) and an insert at
byte position 1, in bounds but inside the character. -/
def c6_state : EngineState :=
  { document_content := [195, 169], operation_history := [], revision := 0 }

def c6_op : Operation :=
  { id := 10, client_id := 1, operation_type := .insert 1 [120], timestamp := 0, revision := 0 }

def c6_ascii_state : EngineState :=
  { document_content := [97, 98], operation_history := [], revision := 0 }

def c6_ascii_op : Operation :=
  { id := 11, client_id := 1, operation_type := .insert 1 [120], timestamp := 0, revision := 0 }

def c7_op : Operation :=
  { id := 12, client_id := 1, operation_type := .retain 3, timestamp := 0, revision := 0 }

def c7_stamped : Operation := { c7_op with revision := 1 }

/-- The state after applying `c7_op` to the initial state. -/
def c7_state : EngineState :=
  { document_content := [], operation_history := [c7_stamped], revision := 1 }

def c7_result : OperationResult :=
  { success := true, new_revision := 1, transformed_operations := [c7_stamped],
    conflict_resolved := false }

def c8_hop : Operation :=
  { id := 0, client_id := 1, operation_type := .retain 1, timestamp := 0, revision := 0 }

/-- An engine whose history is already at the 1000-entry bound. -/
def c8_state : EngineState :=
  { document_content := [], operation_history := List.replicate 1000 c8_hop, revision := 0 }

def c8_op : Operation :=
  { id := 1, client_id := 1, operation_type := .retain 1, timestamp := 0, revision := 0 }

def c8_stamped : Operation := { c8_op with revision := 1 }

/-- The state after applying `c8_op` to `c8_state`: oldest entry evicted. -/
def c8_state' : EngineState :=
  { document_content := [],
    operation_history := List.replicate 999 c8_hop ++ [c8_stamped], revision := 1 }

def c8_result : OperationResult :=
  { success := true, new_revision := 1, transformed_operations := [c8_stamped],
    conflict_resolved := false }

def c9_state : EngineState :=
  { document_content := [97, 98], operation_history := [], revision := 0 }

/-- A zero-length delete sitting exactly at the end of the content. -/
def c9_del : Operation :=
  { id := 13, client_id := 1, operation_type := .delete 2 0, timestamp := 0, revision := 0 }

def c9_ins : Operation :=
  { id := 14, client_id := 1, operation_type := .insert 2 [99], timestamp := 0, revision := 0 }

def c10_state : EngineState :=
  { document_content := [104, 105], operation_history := [], revision := 4 }

/-- A retain far longer than the two-byte content. -/
def c10_op : Operation :=
  { id := 15, client_id := 3, operation_type := .retain 42, timestamp := 9, revision := 2 }

theorem resolve_insert_delete_conflict_ok (op1 op2 : Operation)
    (p : Nat) (c : List Nat) (q l : Nat)
    (h1 : op1.operation_type = .insert p c) (h2 : op2.operation_type = .delete q l) :
    ∃ pr, resolve_insert_delete_conflict op1 op2 = .ok (some pr) := by
  simp only [resolve_insert_delete_conflict, h1, h2]
  split
  · split
    · exact ⟨_, rfl⟩
    · exact ⟨_, rfl⟩
  · exact ⟨_, rfl⟩

theorem resolve_overlapping_deletes_ok (op1 op2 : Operation)
    (p1 l1 p2 l2 : Nat)
    (h1 : op1.operation_type = .delete p1 l1) (h2 : op2.operation_type = .delete p2 l2) :
    ∃ pr, resolve_overlapping_deletes op1 op2 = .ok (some pr) := by
  simp only [resolve_overlapping_deletes, h1, h2]
  exact ⟨_, rfl⟩

/-- `transform_operations` never returns `Err` and never returns `Ok(None)`:
every arm of the match, including the two conflict resolvers it calls,
produces `Ok(Some(..))`. -/
theorem transform_operations_ok (op1 op2 : Operation) :
    ∃ pr, transform_operations op1 op2 = .ok (some pr) := by
  cases h1 : op1.operation_type with
  | insert p1 c1 =>
    cases h2 : op2.operation_type with
    | insert p2 c2 =>
      simp only [transform_operations, h1, h2]
      split
      · exact ⟨_, rfl⟩
      · exact ⟨_, rfl⟩
    | delete p2 l2 =>
      simp only [transform_operations, h1, h2]
      split
      · exact ⟨_, rfl⟩
      split
      · exact ⟨_, rfl⟩
      · exact resolve_insert_delete_conflict_ok op1 op2 p1 c1 p2 l2 h1 h2
    | retain l2 =>
      simp only [transform_operations, h1, h2]
      exact ⟨_, rfl⟩
  | delete p1 l1 =>
    cases h2 : op2.operation_type with
    | insert p2 c2 =>
      simp only [transform_operations, h1, h2]
      split
      · exact ⟨_, rfl⟩
      split
      · exact ⟨_, rfl⟩
      · exact resolve_insert_delete_conflict_ok op2 op1 p2 c2 p1 l1 h2 h1
    | delete p2 l2 =>
      simp only [transform_operations, h1, h2]
      split
      · exact ⟨_, rfl⟩
      split
      · exact ⟨_, rfl⟩
      · exact resolve_overlapping_deletes_ok op1 op2 p1 l1 p2 l2 h1 h2
    | retain l2 =>
      simp only [transform_operations, h1, h2]
      exact ⟨_, rfl⟩
  | retain l1 =>
    cases h2 : op2.operation_type <;>
      simp only [transform_operations, h1, h2] <;> exact ⟨_, rfl⟩

/-- The transform loop always falls through to the apply step, leaving the
accumulated vector untouched (the `Ok(None)` rejection branch is
unreachable). -/
theorem transform_loop_proceeds (orig : Operation) (cs : List Operation) :
    ∀ (final : Operation) (acc : List Operation) (conflict : Bool),
      ∃ f b, transform_loop orig cs final acc conflict = .ok (.proceed f acc b) := by
  induction cs with
  | nil => exact fun final acc conflict => ⟨final, conflict, rfl⟩
  | cons c rest ih =>
    intro final acc conflict
    obtain ⟨⟨t, u⟩, hp⟩ := transform_operations_ok final c
    obtain ⟨f, b, hf⟩ := ih t acc true
    refine ⟨f, b, ?_⟩
    simp only [transform_loop, hp]
    exact hf

/-- `apply_operation` always reduces to `finish_apply` on the loop's final
operation, with an empty accumulated vector. -/
theorem apply_operation_eq (st : EngineState) (op : Operation) :
    ∃ f b, apply_operation st op = (finish_apply st f [] b).map Except.ok := by
  obtain ⟨f, b, h⟩ :=
    transform_loop_proceeds op (find_concurrent_operations op st.operation_history) op [] false
  exact ⟨f, b, by simp only [apply_operation, h]⟩

/-- Case analysis on a normal return of `finish_apply`: either the bounds
check failed and the state is returned untouched, or the content mutation
succeeded and revision/history were updated. -/
theorem finish_apply_cases (st : EngineState) (final : Operation)
    (acc : List Operation) (conflict : Bool) (st' : EngineState) (r : OperationResult)
    (h : finish_apply st final acc conflict = some (st', r)) :
    (st' = st ∧
       r = { success := false, new_revision := st.revision,
             transformed_operations := acc, conflict_resolved := conflict }) ∨
    (∃ nc, apply_content st.document_content final = some (nc, true) ∧
       st' = { document_content := nc,
               operation_history :=
                 push_history st.operation_history { final with revision := st.revision + 1 },
               revision := st.revision + 1 } ∧
       r = { success := true, new_revision := st.revision + 1,
             transformed_operations := acc ++ [{ final with revision := st.revision + 1 }],
             conflict_resolved := conflict }) := by
  unfold finish_apply at h
  cases hac : apply_content st.document_content final with
  | none => rw [hac] at h; exact absurd h (by simp)
  | some p =>
    obtain ⟨nc, s⟩ := p
    rw [hac] at h
    cases s with
    | true =>
      simp only [Option.some.injEq, Prod.mk.injEq] at h
      exact Or.inr ⟨nc, rfl, h.1.symm, h.2.symm⟩
    | false =>
      simp only [Option.some.injEq, Prod.mk.injEq] at h
      exact Or.inl ⟨h.1.symm, h.2.symm⟩

/-- Case analysis on a normal return of `apply_operation`. -/
theorem apply_ok_cases (st st' : EngineState) (op : Operation) (r : OperationResult)
    (h : apply_operation st op = some (.ok (st', r))) :
    (st' = st ∧ ∃ b, r = { success := false, new_revision := st.revision,
                           transformed_operations := [], conflict_resolved := b }) ∨
    (∃ f : Operation, ∃ b : Bool, ∃ nc : List Nat,
       apply_content st.document_content f = some (nc, true) ∧
       st' = { document_content := nc,
               operation_history :=
                 push_history st.operation_history { f with revision := st.revision + 1 },
               revision := st.revision + 1 } ∧
       r = { success := true, new_revision := st.revision + 1,
             transformed_operations := [{ f with revision := st.revision + 1 }],
             conflict_resolved := b }) := by
  obtain ⟨f, b, heq⟩ := apply_operation_eq st op
  rw [heq] at h
  cases hfin : finish_apply st f [] b with
  | none => rw [hfin] at h; exact absurd h (by simp)
  | some p =>
    obtain ⟨st'', r''⟩ := p
    rw [hfin] at h
    simp only [Option.map_some', Option.some.injEq, Except.ok.injEq, Prod.mk.injEq] at h
    obtain ⟨h1, h2⟩ := h
    subst h1; subst h2
    rcases finish_apply_cases st f [] b st'' r'' hfin with ⟨hst, hr⟩ | ⟨nc, hac, hst, hr⟩
    · exact Or.inl ⟨hst, b, hr⟩
    · exact Or.inr ⟨f, b, nc, hac, hst, hr⟩

/-- A retain operation passes through `transform_operations` untouched, no
matter what it is paired with. -/
theorem transform_retain_left (op1 op2 : Operation) (l : Nat)
    (h : op1.operation_type = .retain l) :
    transform_operations op1 op2 = .ok (some (op1, op2)) := by
  cases h2 : op2.operation_type <;> simp only [transform_operations, h, h2]

/-- A retain operation survives the whole transform loop unchanged. -/
theorem transform_loop_retain (orig : Operation) (cs : List Operation) (l : Nat) :
    ∀ (final : Operation) (acc : List Operation) (conflict : Bool),
      final.operation_type = .retain l →
      ∃ b, transform_loop orig cs final acc conflict = .ok (.proceed final acc b) := by
  induction cs with
  | nil => exact fun final acc conflict _ => ⟨conflict, rfl⟩
  | cons c rest ih =>
    intro final acc conflict h
    obtain ⟨b, hb⟩ := ih final acc true h
    refine ⟨b, ?_⟩
    simp only [transform_loop, transform_retain_left final c l h]
    exact hb

/-- In ASCII-only content every index up to the length is a char boundary. -/
theorem is_char_boundary_of_ascii (s : List Nat) (i : Nat)
    (hascii : ∀ b ∈ s, b < 128) (hle : i ≤ s.length) :
    is_char_boundary s i = true := by
  unfold is_char_boundary
  cases hg : s.get? i with
  | none =>
    have hlen : s.length ≤ i := List.get?_eq_none.mp hg
    have : i = s.length := Nat.le_antisymm hle hlen
    simp [this]
  | some b =>
    have hb : b < 128 := hascii b (List.get?_mem hg)
    simp only [Bool.or_eq_true, decide_eq_true_eq]
    exact Or.inl hb

/-- The end of the content is always a char boundary. -/
theorem is_char_boundary_length (s : List Nat) :
    is_char_boundary s s.length = true := by
  unfold is_char_boundary
  rw [List.get?_eq_none.mpr (Nat.le_refl _)]
  simp

/-- With ASCII-only content the apply step cannot hit a panic. -/
theorem apply_content_isSome_of_ascii (content : List Nat) (final : Operation)
    (hascii : ∀ b ∈ content, b < 128) :
    apply_content content final ≠ none := by
  cases hty : final.operation_type with
  | insert position insert_content =>
    simp only [apply_content, hty]
    split
    · rename_i hle
      unfold insert_str
      rw [is_char_boundary_of_ascii content position hascii hle]
      simp
    · simp
  | delete position length =>
    simp only [apply_content, hty]
    split
    · rename_i hcond
      unfold drain
      rw [is_char_boundary_of_ascii content position hascii (Nat.le_of_lt hcond.1),
          is_char_boundary_of_ascii content (position + length) hascii hcond.2]
      simp
    · simp
  | retain l => simp [apply_content, hty]

/-- `push_history` keeps the history at or below the bound. -/
theorem push_history_length_le (history : List Operation) (op : Operation)
    (hle : history.length ≤ max_history_size) :
    (push_history history op).length ≤ max_history_size := by
  unfold push_history
  have hlen : (history ++ [op]).length = history.length + 1 := by simp
  split <;> simp only [List.length_drop, hlen] <;> omega

/-- One engine step keeps the history at or below the bound. -/
theorem next_state_history_le (st : EngineState) (op : Operation)
    (hle : st.operation_history.length ≤ max_history_size) :
    (next_state st op).operation_history.length ≤ max_history_size := by
  unfold next_state
  cases h : apply_operation st op with
  | none => exact hle
  | some e =>
    cases e with
    | error er => exact hle
    | ok p =>
      obtain ⟨st', r⟩ := p
      rcases apply_ok_cases st st' op r h with ⟨hst, _⟩ | ⟨f, b, nc, _, hst, _⟩
      · simp only [hst]; exact hle
      · simp only [hst]
        exact push_history_length_le st.operation_history _ hle

/-- Any run from the initial state keeps the history at or below the bound. -/
theorem run_ops_history_le (ops : List Operation) :
    ∀ st : EngineState, st.operation_history.length ≤ max_history_size →
      (run_ops st ops).operation_history.length ≤ max_history_size := by
  induction ops with
  | nil => exact fun st h => h
  | cons op rest ih =>
    intro st h
    exact ih (next_state st op) (next_state_history_le st op h)

/-- C1: Convergence fails on the code.  For the concurrent equal-position
inserts `c1A` (byte 97 at 0) and `c1B` (byte 98 at 0) against the empty base
content, `transform_operations` keeps whichever operation is its first
argument unshifted, so applying `c1A` then the transformed `c1B` yields
content `[97, 98]` while applying `c1B` then the transformed `c1A` yields
`[98, 97]`: the two orders do not converge. -/
theorem convergence_fails_equal_position_inserts :
    transform_operations c1A c1B =
      .ok (some (c1A, { c1B with operation_type := .insert 1 [98] })) ∧
    transform_operations c1B c1A =
      .ok (some (c1B, { c1A with operation_type := .insert 1 [97] })) ∧
    (apply_effect [] c1A.operation_type).bind
        (fun s => apply_effect s (OperationType.insert 1 [98])) = some [97, 98] ∧
    (apply_effect [] c1B.operation_type).bind
        (fun s => apply_effect s (OperationType.insert 1 [97])) = some [98, 97] ∧
    ([97, 98] : List Nat) ≠ [98, 97] :=
  ⟨rfl, rfl, rfl, rfl, by decide⟩

/-- C2: The resolver computes the split (insert, pre-delete of length 1,
post-delete of length 2) but its returned pair keeps only the insert and the
FIRST sub-delete, so for insert `c2_ins` (bytes 88, 89 at position 2) inside
delete `c2_del` (range [1, 4)) over content "abcdef" the returned operations
leave `[97, 88, 89, 99, 100, 101, 102]` ("aXYcdef"), not the claimed net
change `[97, 88, 89, 101, 102]` ("aXYef"): bytes 99 and 100 that the delete
intended to remove survive. -/
theorem insert_delete_resolver_drops_post_delete :
    resolve_insert_delete_conflict c2_ins c2_del =
      .ok (some (c2_ins, { c2_del with operation_type := .delete 1 1 })) ∧
    (apply_effect [97, 98, 99, 100, 101, 102] c2_ins.operation_type).bind
        (fun s => apply_effect s (OperationType.delete 1 1)) =
      some [97, 88, 89, 99, 100, 101, 102] ∧
    ([97, 88, 89, 99, 100, 101, 102] : List Nat) ≠ [97, 88, 89, 101, 102] :=
  ⟨rfl, rfl, by decide⟩

/-- C3: The insert-vs-insert tie-break ignores timestamps and client ids.
`c3A` has the LATER timestamp (50 vs 10) yet is kept first (unshifted)
whenever it is the first argument, and presenting the same pair in the other
order flips the winner, so replicas that transform in different orders pick
different winners. -/
theorem insert_tie_break_ignores_timestamps :
    c3B.timestamp < c3A.timestamp ∧
    transform_operations c3A c3B =
      .ok (some (c3A, { c3B with operation_type := .insert 1 [98] })) ∧
    transform_operations c3B c3A =
      .ok (some (c3B, { c3A with operation_type := .insert 1 [97] })) :=
  ⟨by decide, rfl, rfl⟩

/-- C4: Two concurrent deletes with overlapping ranges are merged by
`transform_operations` into a single delete covering the union of the two
ranges (position = min of starts, length = max of ends minus min of starts),
carrying the earlier of the two timestamps, and both components of the
returned pair are that merged delete. -/
theorem overlapping_deletes_merged (op1 op2 : Operation) (p1 l1 p2 l2 : Nat)
    (h1 : op1.operation_type = .delete p1 l1)
    (h2 : op2.operation_type = .delete p2 l2)
    (hov1 : ¬ p1 + l1 ≤ p2) (hov2 : ¬ p2 + l2 ≤ p1) :
    ∃ merged : Operation,
      transform_operations op1 op2 = .ok (some (merged, merged)) ∧
      merged.operation_type =
        .delete (min p1 p2) (max (p1 + l1) (p2 + l2) - min p1 p2) ∧
      merged.timestamp = min op1.timestamp op2.timestamp := by
  refine ⟨{ op1 with
            operation_type := .delete (min p1 p2) (max (p1 + l1) (p2 + l2) - min p1 p2),
            timestamp :=
              if op1.timestamp < op2.timestamp then op1.timestamp else op2.timestamp },
          ?_, rfl, ?_⟩
  · simp only [transform_operations, h1, h2]
    rw [if_neg hov1, if_neg hov2]
    simp only [resolve_overlapping_deletes, h1, h2]
  · show (if op1.timestamp < op2.timestamp then op1.timestamp else op2.timestamp)
        = min op1.timestamp op2.timestamp
    split
    · rename_i hlt
      exact (min_eq_left (le_of_lt hlt)).symm
    · rename_i hge
      exact (min_eq_right (not_lt.mp hge)).symm

/-- C4 witness: the spec scenario, deletes over [1, 3) and [2, 5). -/
theorem overlapping_deletes_merged_witness :
    ∃ merged : Operation,
      transform_operations c4a c4b = .ok (some (merged, merged)) ∧
      merged.operation_type =
        .delete (min 1 2) (max (1 + 2) (2 + 3) - min 1 2) ∧
      merged.timestamp = min c4a.timestamp c4b.timestamp :=
  overlapping_deletes_merged c4a c4b 1 2 2 3 rfl rfl (by decide) (by decide)

/-- C5: An operation whose post-transform position exceeds the content
length, or whose delete range runs past the content length, is rejected by
`apply_operation`: the call returns `success = false` with the revision
unchanged, and the engine state (content, history, revision) is returned
exactly as it was. -/
theorem out_of_bounds_rejected (st : EngineState) (op final : Operation)
    (acc : List Operation) (conflict : Bool)
    (hloop : transform_loop op (find_concurrent_operations op st.operation_history)
        op [] false = .ok (.proceed final acc conflict))
    (hb : out_of_bounds st.document_content.length final.operation_type) :
    apply_operation st op =
      some (.ok (st, { success := false, new_revision := st.revision,
                       transformed_operations := acc, conflict_resolved := conflict })) := by
  have happ : apply_operation st op = (finish_apply st final acc conflict).map Except.ok := by
    simp only [apply_operation, hloop]
  rw [happ]
  have hac : apply_content st.document_content final = some (st.document_content, false) := by
    cases hty : final.operation_type with
    | insert position insert_content =>
      rw [hty] at hb
      have hlt : st.document_content.length < position := hb
      simp only [apply_content, hty]
      rw [if_neg (by omega)]
    | delete position length =>
      rw [hty] at hb
      have hor : st.document_content.length < position ∨
          st.document_content.length < position + length := hb
      simp only [apply_content, hty]
      rw [if_neg (by omega)]
    | retain l =>
      rw [hty] at hb
      exact hb.elim
  unfold finish_apply
  rw [hac]
  rfl

/-- C5 witness: the spec scenario, content "start" and a delete at position
10 of length 2. -/
theorem out_of_bounds_rejected_witness :
    apply_operation c5_state c5_op =
      some (.ok (c5_state, { success := false, new_revision := 0,
                             transformed_operations := [], conflict_resolved := false })) :=
  out_of_bounds_rejected c5_state c5_op c5_op [] false rfl (Or.inl (by decide))

/-- C6 counterexample: `apply_operation` is NOT total over arbitrary byte
positions in multi-byte UTF-8 content.  With the two-byte encoding of one
character as content, an insert at byte position 1 passes the numeric bounds
check (1 <= 2) but hits `String::insert_str`'s char-boundary assertion: the
call panics (modelled as `none`). -/
theorem apply_operation_panics_inside_multibyte :
    apply_operation c6_state c6_op = none := rfl

/-- C6 (amended): `apply_operation` terminates without panicking whenever the
content contains no multi-byte characters (every byte below 128): the numeric
bounds checks performed before mutation then also guarantee that every index
the code splices at is a char boundary. -/
theorem apply_no_panic_on_ascii (st : EngineState) (op : Operation)
    (hascii : ∀ b ∈ st.document_content, b < 128) :
    apply_operation st op ≠ none := by
  obtain ⟨f, b, happ⟩ := apply_operation_eq st op
  rw [happ]
  cases hfin : finish_apply st f [] b with
  | none =>
    exfalso
    apply apply_content_isSome_of_ascii st.document_content f hascii
    unfold finish_apply at hfin
    cases hac : apply_content st.document_content f with
    | none => rfl
    | some p =>
      rw [hac] at hfin
      obtain ⟨nc, s⟩ := p
      cases s <;> simp at hfin
  | some p => simp

/-- C6 witness for the amended claim: ASCII content "ab" and an in-bounds
insert. -/
theorem apply_no_panic_on_ascii_witness :
    apply_operation c6_ascii_state c6_ascii_op ≠ none :=
  apply_no_panic_on_ascii c6_ascii_state c6_ascii_op (by decide)

/-- C7: A successful `apply_operation` call increments the revision by
exactly 1, reports that new revision, and stamps the applied operation (the
last entry of the returned `transformed_operations`) with it; an unsuccessful
call leaves the revision unchanged and reports the old revision. -/
theorem revision_monotonic (st st' : EngineState) (op : Operation) (r : OperationResult)
    (h : apply_operation st op = some (.ok (st', r))) :
    (r.success = true →
       st'.revision = st.revision + 1 ∧ r.new_revision = st'.revision ∧
       ∃ fop, r.transformed_operations.getLast? = some fop ∧
         fop.revision = st'.revision) ∧
    (r.success = false → st'.revision = st.revision ∧ r.new_revision = st.revision) := by
  rcases apply_ok_cases st st' op r h with ⟨hst, b, hr⟩ | ⟨f, b, nc, hac, hst, hr⟩
  · subst hst; subst hr
    exact ⟨fun hs => by simp at hs, fun _ => ⟨rfl, rfl⟩⟩
  · subst hst; subst hr
    refine ⟨fun _ => ⟨rfl, rfl, { f with revision := st.revision + 1 }, rfl, rfl⟩,
            fun hs => by simp at hs⟩

/-- C7 witness: a retain applied to the fresh engine takes revision 0 to 1. -/
theorem revision_monotonic_witness :
    (c7_result.success = true →
       c7_state.revision = initial_state.revision + 1 ∧
       c7_result.new_revision = c7_state.revision ∧
       ∃ fop, c7_result.transformed_operations.getLast? = some fop ∧
         fop.revision = c7_state.revision) ∧
    (c7_result.success = false →
       c7_state.revision = initial_state.revision ∧
       c7_result.new_revision = initial_state.revision) :=
  revision_monotonic initial_state c7_state c7_op c7_result rfl

/-- C8: The operation history never exceeds 1000 entries over any sequence
of `apply_operation` calls from the fresh engine, and when a successful call
finds the history already at 1000 entries the oldest (front) entry is evicted
before the newly stamped operation is appended. -/
theorem history_bound :
    (∀ ops : List Operation,
       (run_ops initial_state ops).operation_history.length ≤ 1000) ∧
    (∀ (st st' : EngineState) (op : Operation) (r : OperationResult),
       apply_operation st op = some (.ok (st', r)) →
       st.operation_history.length = 1000 →
       r.success = true →
       ∃ fop, st'.operation_history = st.operation_history.drop 1 ++ [fop]) := by
  constructor
  · intro ops
    exact run_ops_history_le ops initial_state (by simp [initial_state])
  · intro st st' op r h hlen hs
    rcases apply_ok_cases st st' op r h with ⟨hst, b, hr⟩ | ⟨f, b, nc, hac, hst, hr⟩
    · subst hr; simp at hs
    · refine ⟨{ f with revision := st.revision + 1 }, ?_⟩
      rw [hst]
      show push_history st.operation_history _ = _
      unfold push_history
      rw [if_pos (by simp [hlen, max_history_size])]
      exact List.drop_append_of_le_length (by simp [hlen])

set_option maxRecDepth 100000 in
/-- C8 witness: applying one more operation to an engine whose history holds
exactly 1000 entries evicts the oldest entry. -/
theorem history_bound_witness :
    (run_ops initial_state []).operation_history.length ≤ 1000 ∧
    ∃ fop, c8_state'.operation_history = c8_state.operation_history.drop 1 ++ [fop] :=
  ⟨history_bound.1 [], history_bound.2 c8_state c8_state' c8_op c8_result rfl rfl rfl⟩

/-- C9: A delete whose post-transform position equals the content length is
rejected by `apply_operation` (the apply-time check demands position strictly
below the length) even when its length is 0, while an insert at the content
length succeeds and appends its content at the end. -/
theorem delete_at_end_rejected (st : EngineState) (opD opI : Operation)
    (l : Nat) (c : List Nat)
    (hd : opD.operation_type = .delete st.document_content.length l)
    (hi : opI.operation_type = .insert st.document_content.length c)
    (hcd : find_concurrent_operations opD st.operation_history = [])
    (hci : find_concurrent_operations opI st.operation_history = []) :
    apply_operation st opD =
      some (.ok (st, { success := false, new_revision := st.revision,
                       transformed_operations := [], conflict_resolved := false })) ∧
    ∃ st' r, apply_operation st opI = some (.ok (st', r)) ∧ r.success = true ∧
      st'.document_content = st.document_content ++ c := by
  constructor
  · have happ : apply_operation st opD = (finish_apply st opD [] false).map Except.ok := by
      simp only [apply_operation, hcd, transform_loop]
    rw [happ]
    have hac : apply_content st.document_content opD = some (st.document_content, false) := by
      simp only [apply_content, hd]
      rw [if_neg (by omega)]
    unfold finish_apply
    rw [hac]
    rfl
  · have happ : apply_operation st opI = (finish_apply st opI [] false).map Except.ok := by
      simp only [apply_operation, hci, transform_loop]
    have hins : insert_str st.document_content st.document_content.length c
        = some (st.document_content ++ c) := by
      unfold insert_str
      rw [is_char_boundary_length]
      simp
    have hac : apply_content st.document_content opI
        = some (st.document_content ++ c, true) := by
      simp only [apply_content, hi]
      rw [if_pos (Nat.le_refl _), hins]
      rfl
    refine ⟨{ document_content := st.document_content ++ c,
              operation_history :=
                push_history st.operation_history { opI with revision := st.revision + 1 },
              revision := st.revision + 1 },
            { success := true, new_revision := st.revision + 1,
              transformed_operations := [{ opI with revision := st.revision + 1 }],
              conflict_resolved := false }, ?_, rfl, rfl⟩
    rw [happ]
    unfold finish_apply
    rw [hac]
    rfl

/-- C9 witness: content "ab"; the zero-length delete at position 2 is
rejected, the insert of byte 99 at position 2 succeeds. -/
theorem delete_at_end_rejected_witness :
    apply_operation c9_state c9_del =
      some (.ok (c9_state, { success := false, new_revision := 0,
                             transformed_operations := [], conflict_resolved := false })) ∧
    ∃ st' r, apply_operation c9_state c9_ins = some (.ok (st', r)) ∧ r.success = true ∧
      st'.document_content = c9_state.document_content ++ [99] :=
  delete_at_end_rejected c9_state c9_del c9_ins 0 [99] rfl rfl rfl rfl

/-- C10: A retain of any length is always accepted by `apply_operation` (no
concurrent operation can ever reject it, and its length is never checked
against the content): the content is unchanged, the revision still increases
by 1, and the stamped retain is appended to the history (with the usual
eviction if the bound is hit). -/
theorem retain_always_applied (st : EngineState) (op : Operation) (l : Nat)
    (h : op.operation_type = .retain l) :
    ∃ (st' : EngineState) (r : OperationResult),
      apply_operation st op = some (.ok (st', r)) ∧
      r.success = true ∧
      st'.document_content = st.document_content ∧
      st'.revision = st.revision + 1 ∧
      ∃ fop, fop.operation_type = .retain l ∧
        (st'.operation_history = st.operation_history ++ [fop] ∨
         st'.operation_history = (st.operation_history ++ [fop]).drop 1) := by
  obtain ⟨b, hloop⟩ := transform_loop_retain op
    (find_concurrent_operations op st.operation_history) l op [] false h
  have happ : apply_operation st op = (finish_apply st op [] b).map Except.ok := by
    simp only [apply_operation, hloop]
  have hac : apply_content st.document_content op = some (st.document_content, true) := by
    simp only [apply_content, h]
  refine ⟨{ document_content := st.document_content,
            operation_history :=
              push_history st.operation_history { op with revision := st.revision + 1 },
            revision := st.revision + 1 },
          { success := true, new_revision := st.revision + 1,
            transformed_operations := [{ op with revision := st.revision + 1 }],
            conflict_resolved := b }, ?_, rfl, rfl, rfl,
          { op with revision := st.revision + 1 }, ?_, ?_⟩
  · rw [happ]
    unfold finish_apply
    rw [hac]
    rfl
  · show op.operation_type = .retain l
    exact h
  · show push_history st.operation_history _ = _ ∨ push_history st.operation_history _ = _
    unfold push_history
    split
    · exact Or.inr rfl
    · exact Or.inl rfl

/-- C10 witness: a retain of length 42 against two-byte content at revision
4. -/
theorem retain_always_applied_witness :
    ∃ (st' : EngineState) (r : OperationResult),
      apply_operation c10_state c10_op = some (.ok (st', r)) ∧
      r.success = true ∧
      st'.document_content = c10_state.document_content ∧
      st'.revision = c10_state.revision + 1 ∧
      ∃ fop, fop.operation_type = .retain 42 ∧
        (st'.operation_history = c10_state.operation_history ++ [fop] ∨
         st'.operation_history = (c10_state.operation_history ++ [fop]).drop 1) :=
  retain_always_applied c10_state c10_op 42 rfl
